import Mathlib

/-!
# Process resource monitor (`monitor.cpp`)

A shallow embedding of `ProcessMonitor`: the per-tick metric derivation
(`update_metrics`), the four rolling histories, the scaling and quantisation of
`draw_metric`, and the sampling loop of `start_monitoring`.

Conventions of the embedding:

* a C++ `double` is an exact rational (`ℚ`): rounding, infinities and NaN are
  not modelled;
* a C++ `int` / `long` is an `Int`; `static_cast<int>` of a double is the
  truncation toward zero, which is what C++ defines for values inside the
  `int` range;
* reading and parsing a `/proc` file is taken as given: a successful read is
  the parsed value, a failed open is `none`;
* the operating system is an input: every call of `update_metrics` receives a
  `ProcReads` record holding what the `/proc` files answer during that call
  (the `#else` branch of the source);
* a `std::vector` is a `List`, oldest sample first.
-/

namespace Monitor

/-! ## Conversions -/

/-- The conversion `static_cast<int>(x)` of a double: truncation toward zero. -/
def static_cast_int (x : ℚ) : Int := if 0 ≤ x then ⌊x⌋ else ⌈x⌉

/-! ## The operating-system queries -/

/-- What the operating system answers during one call of `update_metrics`.
`none` means that the file could not be opened (`if (!stream) return 0`). -/
structure ProcReads where
  /-- The value of `steady_clock::now()`, in seconds. -/
  now : ℚ
  /-- Fields 14 and 15 (`utime`, `stime`) of `/proc/<pid>/stat`. -/
  stat : Option (Int × Int)
  /-- The value of `sysconf(_SC_CLK_TCK)`. -/
  clock_ticks : Int
  /-- First field of `/proc/<pid>/statm`, as read inside `get_memory_usage_percent`. -/
  statm_for_percent : Option Int
  /-- First field of `/proc/<pid>/statm`, as read by the direct call of `get_memory_usage_mb`. -/
  statm : Option Int
  /-- The value of `sysconf(_SC_PAGESIZE)`. -/
  page_size : Int
  /-- The lines read from `/proc/<pid>/task`. -/
  task : Option (List String)

/-- `ProcessMonitor::get_cpu_time`: cumulative CPU seconds, `0.0` when the file cannot be opened. -/
def get_cpu_time (stat : Option (Int × Int)) (clock_ticks : Int) : ℚ :=
  match stat with
  | none => 0
  | some (utime, stime) => ((utime + stime : Int) : ℚ) / (clock_ticks : ℚ)

/-- `ProcessMonitor::get_memory_usage_mb`: `0.0` when the file cannot be opened. -/
def get_memory_usage_mb (statm : Option Int) (page_size : Int) : ℚ :=
  match statm with
  | none => 0
  | some size => ((size * page_size : Int) : ℚ) / (1024 * 1024)

/-- `ProcessMonitor::get_memory_usage_percent`. -/
def get_memory_usage_percent (total_ram : ℚ) (statm : Option Int) (page_size : Int) : ℚ :=
  let mem_mb := get_memory_usage_mb statm page_size
  (mem_mb / total_ram) * 100

/-- `ProcessMonitor::get_thread_count`: counts the non-empty all-digit lines, `0` when the
file cannot be opened. -/
def get_thread_count (task : Option (List String)) : Int :=
  match task with
  | none => 0
  | some lines =>
    lines.foldl
      (fun count tid => if !tid.isEmpty && tid.all Char.isDigit then count + 1 else count) 0

/-! ## The monitor state -/

/-- The data members of `ProcessMonitor` that the sampling engine uses. -/
structure ProcessMonitor where
  num_cores : Int
  total_ram : ℚ
  cpu_history : List ℚ
  mem_percent_history : List ℚ
  mem_mb_history : List ℚ
  thread_count_history : List Int
  last_cpu_time : ℚ
  last_update_time : ℚ

/-- `ProcessMonitor::initialize_history`; `now` is the clock value it reads. -/
def initialize_history (m : ProcessMonitor) (now : ℚ) : ProcessMonitor :=
  { m with
    cpu_history := List.replicate 60 0
    mem_percent_history := List.replicate 60 0
    mem_mb_history := List.replicate 60 0
    thread_count_history := List.replicate 60 0
    last_update_time := now }

/-- The constructor `ProcessMonitor(pid)`: `get_system_info` supplies `num_cores` and
`total_ram`, the member initialiser sets `last_cpu_time = 0`, then `initialize_history` runs. -/
def construct (num_cores : Int) (total_ram : ℚ) (now : ℚ) : ProcessMonitor :=
  initialize_history
    { num_cores := num_cores
      total_ram := total_ram
      cpu_history := []
      mem_percent_history := []
      mem_mb_history := []
      thread_count_history := []
      last_cpu_time := 0
      last_update_time := 0 } now

/-- The call `std::rotate(v.begin(), v.begin() + 1, v.end())`. -/
def rotate_left_one {α : Type} : List α → List α
  | [] => []
  | x :: xs => xs ++ [x]

/-- The assignment `v.back() = x`. -/
def assign_back {α : Type} (v : List α) (x : α) : List α :=
  v.set (v.length - 1) x

/-- The local `cpu_usage` of `update_metrics`. -/
def cpu_usage (m : ProcessMonitor) (r : ProcReads) : ℚ :=
  let elapsed := r.now - m.last_update_time
  let current_cpu_time := get_cpu_time r.stat r.clock_ticks
  if m.last_cpu_time > 0 ∧ elapsed > 0 then
    ((current_cpu_time - m.last_cpu_time) / elapsed) * 100 / (m.num_cores : ℚ)
  else 0

/-- `ProcessMonitor::update_metrics`. -/
def update_metrics (m : ProcessMonitor) (r : ProcReads) : ProcessMonitor :=
  let current_cpu_time := get_cpu_time r.stat r.clock_ticks
  let mem_percent := get_memory_usage_percent m.total_ram r.statm_for_percent r.page_size
  let mem_mb := get_memory_usage_mb r.statm r.page_size
  let threads := get_thread_count r.task
  { m with
    last_update_time := r.now
    last_cpu_time := current_cpu_time
    cpu_history := assign_back (rotate_left_one m.cpu_history) (cpu_usage m r)
    mem_percent_history := assign_back (rotate_left_one m.mem_percent_history) mem_percent
    mem_mb_history := assign_back (rotate_left_one m.mem_mb_history) mem_mb
    thread_count_history := assign_back (rotate_left_one m.thread_count_history) threads }

/-- Any number of ticks, one `ProcReads` per call of `update_metrics`. -/
def run_ticks (m : ProcessMonitor) : List ProcReads → ProcessMonitor
  | [] => m
  | r :: rs => run_ticks (update_metrics m r) rs

/-- The CPU samples computed by the successive ticks of `run_ticks`. -/
def cpu_samples (m : ProcessMonitor) : List ProcReads → List ℚ
  | [] => []
  | r :: rs => cpu_usage m r :: cpu_samples (update_metrics m r) rs

/-! ## Scaling and quantisation (`draw_metric`) -/

/-- The value `history.back()`. -/
def back {α : Type} [Zero α] (history : List α) : α := history.getLastD 0

/-- The value `*std::min_element(history.begin(), history.end())`. -/
def min_element {α : Type} [Zero α] [Min α] : List α → α
  | [] => 0
  | x :: xs => xs.foldl min x

/-- The value `*std::max_element(history.begin(), history.end())`. -/
def max_element {α : Type} [Zero α] [Max α] : List α → α
  | [] => 0
  | x :: xs => xs.foldl max x

/-- The constant `bar_width`. -/
def bar_width : Int := 50

/-- The bar fill of `draw_metric`, `current` already converted to double:
`fill = static_cast<int>((current / max_val) * bar_width); fill = std::min(fill, bar_width)`. -/
def bar_fill (current max_val : ℚ) : Int :=
  min (static_cast_int ((current / max_val) * (bar_width : ℚ))) bar_width

/-- The local `range` of `draw_metric<double>`. -/
def range_double (history : List ℚ) (max_val : ℚ) : ℚ :=
  let min_val := min_element history
  let range := max_val - min_val
  if range = 0 then 1 else range

/-- The local `height` of `draw_metric<double>` for the sample `val`. -/
def height_double (history : List ℚ) (max_val : ℚ) (val : ℚ) : Int :=
  let min_val := min_element history
  static_cast_int (((val - min_val) / range_double history max_val) * 5)

/-- The local `range` of `draw_metric<int>`: the double `max_val - min_val` is converted
to `int` by the initialisation `T range = ...`. -/
def range_int (history : List Int) (max_val : ℚ) : Int :=
  let min_val := min_element history
  let range := static_cast_int (max_val - (min_val : ℚ))
  if range = 0 then 1 else range

/-- The local `height` of `draw_metric<int>` for the sample `val`: `(val - min_val) / range`
is an integer division (rounding toward zero). -/
def height_int (history : List Int) (max_val : ℚ) (val : Int) : Int :=
  let min_val := min_element history
  Int.tdiv (val - min_val) (range_int history max_val) * 5

/-- The index `std::min(height, 5)` used to select from the glyph string. -/
def glyph_index (height : Int) : Int := min height 5

/-- The characters of the literal `" .-*#%@"`. -/
def glyph_chars : List Char := [' ', '.', '-', '*', '#', '%', '@']

/-- The read `" .-*#%@"[i]`; `none` when `i` is outside the literal. -/
def glyph_at (i : Int) : Option Char :=
  if 0 ≤ i then glyph_chars.get? i.toNat else none

/-- What one call of `draw_metric` computes. -/
structure Drawn where
  /-- The bar fill after `std::min(fill, bar_width)`. -/
  fill : Int
  /-- The index `std::min(height, 5)` of every sample, oldest first. -/
  indices : List Int

/-- `ProcessMonitor::draw_metric<double>`. -/
def draw_metric_double (history : List ℚ) (max_val : ℚ) : Drawn :=
  { fill := bar_fill (back history) max_val
    indices := history.map (fun val => glyph_index (height_double history max_val val)) }

/-- `ProcessMonitor::draw_metric<int>`. -/
def draw_metric_int (history : List Int) (max_val : ℚ) : Drawn :=
  { fill := bar_fill ((back history : Int) : ℚ) max_val
    indices := history.map (fun val => glyph_index (height_int history max_val val)) }

/-- Why a call of `draw_metric` does not produce its two lines. -/
inductive DrawFault where
  /-- `std::string(count, c)` with a negative `count` throws `std::length_error`. -/
  | length_error
  /-- The glyph literal is read outside its bounds. -/
  | out_of_bounds
  deriving DecidableEq

/-- The constructor `std::string(count, c)` called with an `int` count. -/
def std_string (count : Int) (c : Char) : Except DrawFault (List Char) :=
  if 0 ≤ count then .ok (List.replicate count.toNat c) else .error .length_error

/-- The glyphs of the history line. -/
def glyph_line : List Int → Except DrawFault (List Char)
  | [] => .ok []
  | i :: is =>
    match glyph_at i with
    | none => .error .out_of_bounds
    | some c =>
      match glyph_line is with
      | .ok cs => .ok (c :: cs)
      | .error f => .error f

/-- The bar line and the history line printed by `draw_metric` (the title line is left out). -/
def render (d : Drawn) : Except DrawFault (List Char × List Char) :=
  match std_string d.fill '=' with
  | .error f => .error f
  | .ok filled =>
    match std_string (bar_width - d.fill) ' ' with
    | .error f => .error f
    | .ok blank =>
      match glyph_line d.indices with
      | .error f => .error f
      | .ok graph => .ok ('[' :: filled ++ blank ++ [']'], graph)

/-- The reference maximum that `update_console` passes for the memory-MB metric. -/
def max_mem (mem_mb_history : List ℚ) : ℚ :=
  let m := max_element mem_mb_history
  if m < 10 then 100 else m

/-- The reference maximum that `update_console` computes for the thread-count metric. -/
def max_threads (thread_count_history : List Int) : Int :=
  let m := max_element thread_count_history
  if m < 5 then 10 else m

/-- The four calls of `draw_metric` made by `update_console`, in order. -/
def draw_all (m : ProcessMonitor) : List Drawn :=
  [ draw_metric_double m.cpu_history 100,
    draw_metric_double m.mem_percent_history 100,
    draw_metric_double m.mem_mb_history (max_mem m.mem_mb_history),
    draw_metric_int m.thread_count_history ((max_threads m.thread_count_history : Int) : ℚ) ]

/-- Rendering the metrics one after the other, stopping at the first fault. -/
def render_all : List Drawn → Except DrawFault (List (List Char × List Char))
  | [] => .ok []
  | d :: ds =>
    match render d with
    | .error f => .error f
    | .ok lines =>
      match render_all ds with
      | .error f => .error f
      | .ok rest => .ok (lines :: rest)

/-- `ProcessMonitor::update_console`: the state after `update_metrics`, and the screen or
the fault that interrupts the drawing. -/
def update_console (m : ProcessMonitor) (r : ProcReads) :
    ProcessMonitor × Except DrawFault (List (List Char × List Char)) :=
  let m1 := update_metrics m r
  (m1, render_all (draw_all m1))

/-! ## The sampling loop (`start_monitoring`) -/

/-- The global flag `stop_monitoring` together with the monitor. -/
structure World where
  stop_monitoring : Bool
  monitor : ProcessMonitor

/-- `signal_handler`. -/
def signal_handler (w : World) : World := { w with stop_monitoring := true }

/-- One evaluation of `while (!stop_monitoring) { update_console(); sleep }`. -/
inductive LoopStep where
  /-- The condition is false: the loop is left. -/
  | left (w : World)
  /-- The body ran to its end: the loop goes on. -/
  | ticked (w : World) (screen : List (List Char × List Char))
  /-- The body was interrupted by a fault of the drawing code. -/
  | faulted (w : World) (f : DrawFault)

/-- One evaluation of the loop condition and, when it holds, of the loop body. -/
def loop_iteration (w : World) (r : ProcReads) : LoopStep :=
  if w.stop_monitoring then .left w
  else
    match update_console w.monitor r with
    | (m1, .ok screen) => .ticked { w with monitor := m1 } screen
    | (m1, .error f) => .faulted { w with monitor := m1 } f

/-- The world in which one evaluation of the loop ends. -/
def LoopStep.world : LoopStep → World
  | .left w => w
  | .ticked w _ => w
  | .faulted w _ => w

/-- Whether the loop goes on to a further evaluation of its condition. -/
def LoopStep.goes_on : LoopStep → Bool
  | .ticked _ _ => true
  | _ => false

/-- The fault that interrupted the loop body, if any. -/
def LoopStep.fault : LoopStep → Option DrawFault
  | .faulted _ f => some f
  | _ => none

/-- The fault, if any, that keeps `draw_metric` from printing its two lines. -/
def Drawn.fault (d : Drawn) : Option DrawFault :=
  match render d with
  | .error f => some f
  | .ok _ => none

/-! ## Concrete readings used by the examples -/

/-- The readings of a tick on which the process is alive: `utime` clock ticks at 100 ticks per
second, `pages` pages of 4096 bytes, and the given lines of the task listing. -/
def live_reads (now : ℚ) (utime : Int) (pages : Int) (lines : List String) : ProcReads :=
  { now := now
    stat := some (utime, 0)
    clock_ticks := 100
    statm_for_percent := some pages
    statm := some pages
    page_size := 4096
    task := some lines }

/-- The readings of a tick on which the process no longer exists: no file can be opened. -/
def vanished_reads (now : ℚ) : ProcReads :=
  { now := now
    stat := none
    clock_ticks := 100
    statm_for_percent := none
    statm := none
    page_size := 4096
    task := none }

/-- A running loop whose monitor (4 cores, 8000 MB) has made one tick on a process that has
not consumed any CPU time yet. -/
def idle_world : World :=
  { stop_monitoring := false
    monitor := update_metrics (construct 4 8000 0) (live_reads 1 0 256 ["1"]) }

/-- A running loop whose monitor (4 cores, 8000 MB) has made one tick on a process that has
consumed 10 CPU seconds. -/
def busy_world : World :=
  { stop_monitoring := false
    monitor := update_metrics (construct 4 8000 0) (live_reads 1 1000 256 ["1"]) }

/-- Sixty ticks on a machine with 1000 MB of RAM: 59 readings of 2000 MB (512000 pages), then
one reading of 3000 MB. -/
def swollen_reads : List ProcReads :=
  (List.range 59).map (fun (i : Nat) => live_reads ((i : ℚ) + 1) 0 512000 ["1"])
    ++ [live_reads 60 0 768000 ["1"]]

/-- Sixty ticks on a machine with 1000 MB of RAM: the reading grows by 10 MB per tick,
starting at 2000 MB. -/
def rising_reads : List ProcReads :=
  (List.range 60).map
    (fun (i : Nat) => live_reads ((i : ℚ) + 1) 0 ((2000 + 10 * (i : Int)) * 256) ["1"])

/-- The strictly increasing history 200, 201, ..., 259. -/
def rising_history : List ℚ := (List.range 60).map (fun (i : Nat) => (200 : ℚ) + (i : ℚ))

/-! # Theorems -/

/-! ## Rolling histories: auxiliary facts -/

theorem push_cons {α : Type} (x : α) (xs : List α) (s : α) :
    assign_back (rotate_left_one (x :: xs)) s = xs ++ [s] := by
  simp [rotate_left_one, assign_back, List.set_append]

theorem push_length {α : Type} (h : List α) (s : α) :
    (assign_back (rotate_left_one h) s).length = h.length := by
  cases h <;> simp [rotate_left_one, assign_back]

theorem push_eq_drop {α : Type} (h : List α) (s : α) (hne : h ≠ []) :
    assign_back (rotate_left_one h) s = (h ++ [s]).drop 1 := by
  cases h with
  | nil => exact absurd rfl hne
  | cons x xs => rw [push_cons]; rfl

theorem push_getElem_shift {α : Type} (h : List α) (s : α) (i : Nat) (hi : i + 1 < h.length) :
    (assign_back (rotate_left_one h) s)[i]? = h[i + 1]? := by
  cases h with
  | nil => simp at hi
  | cons x xs =>
    rw [push_cons]
    simp only [List.length_cons, Nat.add_lt_add_iff_right] at hi
    rw [List.getElem?_append_left hi]
    simp

theorem push_getElem_last {α : Type} (h : List α) (s : α) (hne : h ≠ []) :
    (assign_back (rotate_left_one h) s)[h.length - 1]? = some s := by
  cases h with
  | nil => exact absurd rfl hne
  | cons x xs =>
    rw [push_cons]
    simp

theorem push_getLast {α : Type} (h : List α) (s : α) (hne : h ≠ []) :
    (assign_back (rotate_left_one h) s).getLast? = some s := by
  cases h with
  | nil => exact absurd rfl hne
  | cons x xs => rw [push_cons]; simp

theorem ne_nil_of_length_sixty {α : Type} (h : List α) (hlen : h.length = 60) : h ≠ [] := by
  intro hnil
  rw [hnil] at hlen
  simp at hlen

/-- After the ticks `rs` a history holds the last `length` elements of the old history
followed by the samples, for any per-tick sample function. -/
theorem window_after_pushes {α β : Type} (f : β → α) (rs : List β) (h : List α)
    (hne : h ≠ []) :
    rs.foldl (fun acc r => assign_back (rotate_left_one acc) (f r)) h
      = (h ++ rs.map f).drop rs.length := by
  induction rs generalizing h with
  | nil => simp
  | cons r rs ih =>
    have hne1 : assign_back (rotate_left_one h) (f r) ≠ [] := by
      intro hnil
      have := push_length h (f r)
      rw [hnil] at this
      exact hne (List.length_eq_zero.mp this.symm)
    rw [List.foldl_cons, ih _ hne1, push_eq_drop h (f r) hne]
    cases h with
    | nil => exact absurd rfl hne
    | cons x xs => simp

theorem zero_window {α : Type} (z : α) (ss : List α) (hk : ss.length ≤ 60) :
    (List.replicate 60 z ++ ss).drop ss.length = List.replicate (60 - ss.length) z ++ ss := by
  rw [List.drop_append_of_le_length (by simpa using hk), List.drop_replicate]

theorem run_ticks_total_ram (m : ProcessMonitor) (rs : List ProcReads) :
    (run_ticks m rs).total_ram = m.total_ram := by
  induction rs generalizing m with
  | nil => rfl
  | cons r rs ih => rw [run_ticks, ih]; rfl

theorem run_ticks_lengths (m : ProcessMonitor) (rs : List ProcReads) :
    (run_ticks m rs).cpu_history.length = m.cpu_history.length ∧
    (run_ticks m rs).mem_percent_history.length = m.mem_percent_history.length ∧
    (run_ticks m rs).mem_mb_history.length = m.mem_mb_history.length ∧
    (run_ticks m rs).thread_count_history.length = m.thread_count_history.length := by
  induction rs generalizing m with
  | nil => exact ⟨rfl, rfl, rfl, rfl⟩
  | cons r rs ih =>
    obtain ⟨h1, h2, h3, h4⟩ := ih (update_metrics m r)
    rw [run_ticks, h1, h2, h3, h4]
    simp only [update_metrics, push_length, and_self]

theorem run_ticks_cpu_window (m : ProcessMonitor) (rs : List ProcReads)
    (hne : m.cpu_history ≠ []) :
    (run_ticks m rs).cpu_history = (m.cpu_history ++ cpu_samples m rs).drop rs.length := by
  induction rs generalizing m with
  | nil => simp [run_ticks, cpu_samples]
  | cons r rs ih =>
    have hstep : (update_metrics m r).cpu_history
        = assign_back (rotate_left_one m.cpu_history) (cpu_usage m r) := rfl
    have hne1 : (update_metrics m r).cpu_history ≠ [] := by
      intro hnil
      have := push_length m.cpu_history (cpu_usage m r)
      rw [← hstep, hnil] at this
      exact hne (List.length_eq_zero.mp this.symm)
    rw [run_ticks, ih _ hne1, hstep, push_eq_drop _ _ hne, cpu_samples]
    cases hc : m.cpu_history with
    | nil => exact absurd hc hne
    | cons x xs => simp

theorem run_ticks_mem_percent_window (m : ProcessMonitor) (rs : List ProcReads)
    (hne : m.mem_percent_history ≠ []) :
    (run_ticks m rs).mem_percent_history
      = (m.mem_percent_history ++ rs.map (fun r =>
          get_memory_usage_percent m.total_ram r.statm_for_percent r.page_size)).drop
          rs.length := by
  rw [← window_after_pushes _ rs _ hne]
  clear hne
  induction rs generalizing m with
  | nil => rfl
  | cons r rs ih => rw [run_ticks, ih]; rfl

theorem run_ticks_mem_mb_window (m : ProcessMonitor) (rs : List ProcReads)
    (hne : m.mem_mb_history ≠ []) :
    (run_ticks m rs).mem_mb_history
      = (m.mem_mb_history ++ rs.map (fun r =>
          get_memory_usage_mb r.statm r.page_size)).drop rs.length := by
  rw [← window_after_pushes _ rs _ hne]
  clear hne
  induction rs generalizing m with
  | nil => rfl
  | cons r rs ih => rw [run_ticks, ih]; rfl

theorem run_ticks_thread_window (m : ProcessMonitor) (rs : List ProcReads)
    (hne : m.thread_count_history ≠ []) :
    (run_ticks m rs).thread_count_history
      = (m.thread_count_history ++ rs.map (fun r => get_thread_count r.task)).drop
          rs.length := by
  rw [← window_after_pushes _ rs _ hne]
  clear hne
  induction rs generalizing m with
  | nil => rfl
  | cons r rs ih => rw [run_ticks, ih]; rfl

theorem cpu_samples_length (m : ProcessMonitor) (rs : List ProcReads) :
    (cpu_samples m rs).length = rs.length := by
  induction rs generalizing m with
  | nil => rfl
  | cons r rs ih => simp [cpu_samples, ih]

/-! ## Metric derivation -/

/-- C1 (as stated, refuted): on the second tick of a monitor with one core, one second after a
first tick that read a cumulative CPU time of 0 seconds, a current reading of 0.5 seconds makes
the formula worth 50, yet the sample stored at the end of `cpu_history` is 0. -/
theorem cpu_sample_zero_baseline_counterexample :
    0 < (live_reads 2 50 256 ["1"]).now
        - (update_metrics (construct 1 8000 0) (live_reads 1 0 256 ["1"])).last_update_time ∧
    1 ≤ (update_metrics (construct 1 8000 0) (live_reads 1 0 256 ["1"])).num_cores ∧
    (update_metrics (update_metrics (construct 1 8000 0) (live_reads 1 0 256 ["1"]))
        (live_reads 2 50 256 ["1"])).cpu_history.getLast? = some 0 ∧
    ((get_cpu_time (some (50, 0)) 100 - get_cpu_time (some (0, 0)) 100) / (2 - 1)) * 100
        / ((1 : Int) : ℚ) = 50 := by
  decide!

/-- C1 (amended): on a tick whose stored previous reading `last_cpu_time` is positive and whose
elapsed wall time is positive, the sample stored as the last entry of `cpu_history` is
`((curr - prev) / elapsed) * 100 / num_cores`, without any clamping. -/
theorem cpu_sample_formula (m : ProcessMonitor) (r : ProcReads)
    (hlen : m.cpu_history.length = 60)
    (hprev : 0 < m.last_cpu_time)
    (helapsed : 0 < r.now - m.last_update_time) :
    (update_metrics m r).cpu_history.getLast? =
      some (((get_cpu_time r.stat r.clock_ticks - m.last_cpu_time)
              / (r.now - m.last_update_time)) * 100 / (m.num_cores : ℚ)) := by
  have hne := ne_nil_of_length_sixty _ hlen
  show (assign_back (rotate_left_one m.cpu_history) (cpu_usage m r)).getLast? = _
  rw [push_getLast _ _ hne, cpu_usage]
  simp only [gt_iff_lt, hprev, helapsed, and_self, if_true]

/-- Witness of C1: previous reading 10 s, current reading 12 s, 2 s elapsed, gives 25 with
4 cores and 100 with 1 core. -/
theorem cpu_sample_formula_witness :
    ((0 : ℚ) < (update_metrics (construct 4 8000 0) (live_reads 1 1000 256 ["1"])).last_cpu_time ∧
      (0 : ℚ) < (live_reads 3 1200 256 ["1"]).now
        - (update_metrics (construct 4 8000 0) (live_reads 1 1000 256 ["1"])).last_update_time) ∧
    (update_metrics (update_metrics (construct 4 8000 0) (live_reads 1 1000 256 ["1"]))
      (live_reads 3 1200 256 ["1"])).cpu_history.getLast? = some 25 ∧
    (update_metrics (update_metrics (construct 1 8000 0) (live_reads 1 1000 256 ["1"]))
      (live_reads 3 1200 256 ["1"])).cpu_history.getLast? = some 100 :=
  ⟨⟨by decide!, by decide!⟩,
    (cpu_sample_formula (update_metrics (construct 4 8000 0) (live_reads 1 1000 256 ["1"]))
      (live_reads 3 1200 256 ["1"]) (by decide!) (by decide!) (by decide!)).trans (by decide!),
    (cpu_sample_formula (update_metrics (construct 1 8000 0) (live_reads 1 1000 256 ["1"]))
      (live_reads 3 1200 256 ["1"]) (by decide!) (by decide!) (by decide!)).trans (by decide!)⟩

/-- C2: on the first tick after construction, or on any tick whose elapsed wall time is not
positive, the sample stored as the last entry of `cpu_history` is exactly 0, whatever the
current cumulative CPU reading is. -/
theorem cpu_sample_zero_without_baseline (m : ProcessMonitor) (r : ProcReads)
    (h : (∃ num_cores total_ram now, m = construct num_cores total_ram now) ∨
         (m.cpu_history.length = 60 ∧ r.now - m.last_update_time ≤ 0)) :
    (update_metrics m r).cpu_history.getLast? = some 0 := by
  show (assign_back (rotate_left_one m.cpu_history) (cpu_usage m r)).getLast? = _
  rcases h with ⟨c, t, n, rfl⟩ | ⟨hlen, hle⟩
  · rw [push_getLast _ _ (by simp [construct, initialize_history])]
    simp [cpu_usage, construct, initialize_history]
  · rw [push_getLast _ _ (ne_nil_of_length_sixty _ hlen), cpu_usage]
    have : ¬ (0 < r.now - m.last_update_time) := not_lt.mpr hle
    simp [this]

/-- Witness of C2: the first tick of a fresh monitor, reading 10 CPU seconds, and a later tick
whose clock value has not advanced. -/
theorem cpu_sample_zero_without_baseline_witness :
    (update_metrics (construct 4 8000 0) (live_reads 1 1000 256 ["1"])).cpu_history.getLast?
      = some 0 ∧
    (live_reads 1 1200 256 ["1"]).now
      - (update_metrics (construct 4 8000 0) (live_reads 1 1000 256 ["1"])).last_update_time ≤ 0 ∧
    (update_metrics (update_metrics (construct 4 8000 0) (live_reads 1 1000 256 ["1"]))
      (live_reads 1 1200 256 ["1"])).cpu_history.getLast? = some 0 :=
  ⟨cpu_sample_zero_without_baseline _ _ (Or.inl ⟨4, 8000, 0, rfl⟩),
   by decide!,
   cpu_sample_zero_without_baseline _ _ (Or.inr ⟨by decide!, by decide!⟩)⟩

/-! ## Rolling histories -/

/-- C3: after `initialize_history` each of the four histories consists of exactly 60 zeros, and
after any number of `update_metrics` ticks, whatever they read, each still has exactly 60
entries. -/
theorem histories_always_sixty (m : ProcessMonitor) (now : ℚ) (rs : List ProcReads) :
    ((initialize_history m now).cpu_history = List.replicate 60 0 ∧
     (initialize_history m now).mem_percent_history = List.replicate 60 0 ∧
     (initialize_history m now).mem_mb_history = List.replicate 60 0 ∧
     (initialize_history m now).thread_count_history = List.replicate 60 0) ∧
    ((initialize_history m now).cpu_history.length = 60 ∧
     (initialize_history m now).mem_percent_history.length = 60 ∧
     (initialize_history m now).mem_mb_history.length = 60 ∧
     (initialize_history m now).thread_count_history.length = 60) ∧
    ((run_ticks (initialize_history m now) rs).cpu_history.length = 60 ∧
     (run_ticks (initialize_history m now) rs).mem_percent_history.length = 60 ∧
     (run_ticks (initialize_history m now) rs).mem_mb_history.length = 60 ∧
     (run_ticks (initialize_history m now) rs).thread_count_history.length = 60) := by
  obtain ⟨h1, h2, h3, h4⟩ := run_ticks_lengths (initialize_history m now) rs
  have hi : (initialize_history m now).cpu_history.length = 60 ∧
      (initialize_history m now).mem_percent_history.length = 60 ∧
      (initialize_history m now).mem_mb_history.length = 60 ∧
      (initialize_history m now).thread_count_history.length = 60 := by
    simp only [initialize_history, List.length_replicate, and_self]
  exact ⟨⟨rfl, rfl, rfl, rfl⟩, hi, h1.trans hi.1, h2.trans hi.2.1, h3.trans hi.2.2.1,
    h4.trans hi.2.2.2⟩

/-- C4: one tick of `update_metrics` moves the element at index `i + 1` of every history to
index `i` (the element at index 0 is dropped) and writes the new sample at index 59; and after
`k < 60` ticks on freshly initialised histories, each history is `60 - k` zeros followed by the
`k` samples in the order in which they were pushed. -/
theorem history_sliding_window (m m0 : ProcessMonitor) (r : ProcReads) (now : ℚ)
    (rs : List ProcReads)
    (hlen : m.cpu_history.length = 60 ∧ m.mem_percent_history.length = 60 ∧
      m.mem_mb_history.length = 60 ∧ m.thread_count_history.length = 60)
    (hk : rs.length < 60) :
    (∀ i, i < 59 →
      (update_metrics m r).cpu_history[i]? = m.cpu_history[i + 1]? ∧
      (update_metrics m r).mem_percent_history[i]? = m.mem_percent_history[i + 1]? ∧
      (update_metrics m r).mem_mb_history[i]? = m.mem_mb_history[i + 1]? ∧
      (update_metrics m r).thread_count_history[i]? = m.thread_count_history[i + 1]?) ∧
    ((update_metrics m r).cpu_history[59]? = some (cpu_usage m r) ∧
      (update_metrics m r).mem_percent_history[59]?
        = some (get_memory_usage_percent m.total_ram r.statm_for_percent r.page_size) ∧
      (update_metrics m r).mem_mb_history[59]?
        = some (get_memory_usage_mb r.statm r.page_size) ∧
      (update_metrics m r).thread_count_history[59]? = some (get_thread_count r.task)) ∧
    ((run_ticks (initialize_history m0 now) rs).cpu_history
        = List.replicate (60 - rs.length) 0 ++ cpu_samples (initialize_history m0 now) rs ∧
      (run_ticks (initialize_history m0 now) rs).mem_percent_history
        = List.replicate (60 - rs.length) 0 ++ rs.map (fun r =>
            get_memory_usage_percent m0.total_ram r.statm_for_percent r.page_size) ∧
      (run_ticks (initialize_history m0 now) rs).mem_mb_history
        = List.replicate (60 - rs.length) 0 ++ rs.map (fun r =>
            get_memory_usage_mb r.statm r.page_size) ∧
      (run_ticks (initialize_history m0 now) rs).thread_count_history
        = List.replicate (60 - rs.length) 0 ++ rs.map (fun r => get_thread_count r.task)) := by
  obtain ⟨h1, h2, h3, h4⟩ := hlen
  refine ⟨?_, ⟨?_, ?_, ?_, ?_⟩, ⟨?_, ?_, ?_, ?_⟩⟩
  · intro i hi
    exact ⟨push_getElem_shift _ _ i (by omega), push_getElem_shift _ _ i (by omega),
      push_getElem_shift _ _ i (by omega), push_getElem_shift _ _ i (by omega)⟩
  · have := push_getElem_last m.cpu_history (cpu_usage m r) (ne_nil_of_length_sixty _ h1)
    rw [h1] at this; exact this
  · have := push_getElem_last m.mem_percent_history
      (get_memory_usage_percent m.total_ram r.statm_for_percent r.page_size)
      (ne_nil_of_length_sixty _ h2)
    rw [h2] at this; exact this
  · have := push_getElem_last m.mem_mb_history (get_memory_usage_mb r.statm r.page_size)
      (ne_nil_of_length_sixty _ h3)
    rw [h3] at this; exact this
  · have := push_getElem_last m.thread_count_history (get_thread_count r.task)
      (ne_nil_of_length_sixty _ h4)
    rw [h4] at this; exact this
  · rw [run_ticks_cpu_window _ _ (by simp [initialize_history])]
    have hz := zero_window (0 : ℚ) (cpu_samples (initialize_history m0 now) rs)
      (by rw [cpu_samples_length]; omega)
    rw [cpu_samples_length] at hz
    exact hz
  · rw [run_ticks_mem_percent_window _ _ (by simp [initialize_history])]
    have hz := zero_window (0 : ℚ) (rs.map (fun r =>
      get_memory_usage_percent m0.total_ram r.statm_for_percent r.page_size))
      (by rw [List.length_map]; omega)
    rw [List.length_map] at hz
    exact hz
  · rw [run_ticks_mem_mb_window _ _ (by simp [initialize_history])]
    have hz := zero_window (0 : ℚ) (rs.map (fun r => get_memory_usage_mb r.statm r.page_size))
      (by rw [List.length_map]; omega)
    rw [List.length_map] at hz
    exact hz
  · rw [run_ticks_thread_window _ _ (by simp [initialize_history])]
    have hz := zero_window (0 : Int) (rs.map (fun r => get_thread_count r.task))
      (by rw [List.length_map]; omega)
    rw [List.length_map] at hz
    exact hz

/-- Witness of C4: two ticks on freshly initialised histories leave 58 zeros followed by the two
samples, and a further tick shifts the window by one position. -/
theorem history_sliding_window_witness :
    ([live_reads 1 1000 256 ["1", "2"], live_reads 2 1100 512 ["1", "2", "3"]] :
      List ProcReads).length < 60 ∧
    (run_ticks (initialize_history (construct 4 8000 0) 0)
      [live_reads 1 1000 256 ["1", "2"], live_reads 2 1100 512 ["1", "2", "3"]]).mem_mb_history
      = List.replicate 58 0 ++ [1, 2] ∧
    (run_ticks (initialize_history (construct 4 8000 0) 0)
      [live_reads 1 1000 256 ["1", "2"], live_reads 2 1100 512 ["1", "2", "3"]]).thread_count_history
      = List.replicate 58 0 ++ [2, 3] ∧
    (update_metrics (construct 4 8000 0) (live_reads 1 1000 256 ["1", "2"])).mem_mb_history[59]?
      = some 1 := by
  have h := history_sliding_window (construct 4 8000 0) (construct 4 8000 0)
    (live_reads 1 1000 256 ["1", "2"]) 0
    [live_reads 1 1000 256 ["1", "2"], live_reads 2 1100 512 ["1", "2", "3"]]
    (by decide!) (by decide!)
  exact ⟨by decide!, h.2.2.2.2.1.trans (by decide!), h.2.2.2.2.2.trans (by decide!),
    h.2.1.2.2.1.trans (by decide!)⟩

/-! ## Scaling and quantisation: auxiliary facts -/

theorem static_cast_int_nonneg {x : ℚ} (hx : 0 ≤ x) : 0 ≤ static_cast_int x := by
  rw [static_cast_int, if_pos hx]
  exact Int.floor_nonneg.mpr hx

theorem static_cast_int_of_nonneg {x : ℚ} (hx : 0 ≤ x) : static_cast_int x = ⌊x⌋ := by
  rw [static_cast_int, if_pos hx]

theorem static_cast_int_le {x : ℚ} {n : Int} (h0 : 0 ≤ x) (hx : x ≤ (n : ℚ)) :
    static_cast_int x ≤ n := by
  rw [static_cast_int, if_pos h0, Int.floor_le_iff]
  linarith

theorem static_cast_int_intCast (n : Int) : static_cast_int (n : ℚ) = n := by
  unfold static_cast_int
  split
  · exact Int.floor_intCast n
  · exact Int.ceil_intCast n

theorem static_cast_int_zero : static_cast_int 0 = 0 := by
  have := static_cast_int_intCast 0
  simpa using this

theorem foldl_min_le_init {α : Type} [LinearOrder α] (xs : List α) (a : α) :
    xs.foldl min a ≤ a := by
  induction xs generalizing a with
  | nil => exact le_refl a
  | cons x xs ih => exact le_trans (ih (min a x)) (min_le_left a x)

theorem foldl_min_le_mem {α : Type} [LinearOrder α] (xs : List α) (a y : α) (hy : y ∈ xs) :
    xs.foldl min a ≤ y := by
  induction xs generalizing a with
  | nil => simp at hy
  | cons x xs ih =>
    rcases List.mem_cons.mp hy with rfl | hmem
    · exact le_trans (foldl_min_le_init xs (min a y)) (min_le_right a y)
    · exact ih (min a x) hmem

theorem foldl_min_mem {α : Type} [LinearOrder α] (xs : List α) (a : α) :
    xs.foldl min a = a ∨ xs.foldl min a ∈ xs := by
  induction xs generalizing a with
  | nil => exact Or.inl rfl
  | cons x xs ih =>
    rcases ih (min a x) with h | h
    · rcases min_choice a x with hc | hc
      · left; rw [List.foldl_cons, h, hc]
      · right; rw [List.foldl_cons, h, hc]; exact List.mem_cons_self x xs
    · right; exact List.mem_cons_of_mem x h

theorem foldl_max_ge_init {α : Type} [LinearOrder α] (xs : List α) (a : α) :
    a ≤ xs.foldl max a := by
  induction xs generalizing a with
  | nil => exact le_refl a
  | cons x xs ih => exact le_trans (le_max_left a x) (ih (max a x))

theorem foldl_max_ge_mem {α : Type} [LinearOrder α] (xs : List α) (a y : α) (hy : y ∈ xs) :
    y ≤ xs.foldl max a := by
  induction xs generalizing a with
  | nil => simp at hy
  | cons x xs ih =>
    rcases List.mem_cons.mp hy with rfl | hmem
    · exact le_trans (le_max_right a y) (foldl_max_ge_init xs (max a y))
    · exact ih (max a x) hmem

theorem min_element_le {α : Type} [Zero α] [LinearOrder α] (h : List α) (y : α) (hy : y ∈ h) :
    min_element h ≤ y := by
  cases h with
  | nil => simp at hy
  | cons x xs =>
    rcases List.mem_cons.mp hy with rfl | hmem
    · exact foldl_min_le_init xs y
    · exact foldl_min_le_mem xs x y hmem

theorem min_element_mem {α : Type} [Zero α] [LinearOrder α] (h : List α) (hne : h ≠ []) :
    min_element h ∈ h := by
  cases h with
  | nil => exact absurd rfl hne
  | cons x xs =>
    rcases foldl_min_mem xs x with hm | hm
    · show xs.foldl min x ∈ x :: xs
      rw [hm]; exact List.mem_cons_self x xs
    · exact List.mem_cons_of_mem x hm

theorem le_max_element {α : Type} [Zero α] [LinearOrder α] (h : List α) (y : α) (hy : y ∈ h) :
    y ≤ max_element h := by
  cases h with
  | nil => simp at hy
  | cons x xs =>
    rcases List.mem_cons.mp hy with rfl | hmem
    · exact foldl_max_ge_init xs y
    · exact foldl_max_ge_mem xs x y hmem

theorem back_mem {α : Type} [Zero α] (h : List α) (hne : h ≠ []) : back h ∈ h := by
  unfold back
  cases h with
  | nil => exact absurd rfl hne
  | cons x xs =>
    rw [List.getLastD_cons]
    induction xs generalizing x with
    | nil => simp
    | cons y ys ih =>
      rw [List.getLastD_cons]
      exact List.mem_cons_of_mem x (ih y (List.cons_ne_nil y ys))

/-- For a non-negative current value and a positive reference maximum the bar fill is
`min(50, floor((current / max_val) * 50))` and lies between 0 and 50. -/
theorem bar_fill_of_nonneg (current max_val : ℚ) (hc : 0 ≤ current) (hm : 0 < max_val) :
    bar_fill current max_val = min ⌊(current / max_val) * 50⌋ 50 ∧
    0 ≤ bar_fill current max_val ∧ bar_fill current max_val ≤ 50 := by
  have hq : 0 ≤ (current / max_val) * ((bar_width : Int) : ℚ) := by
    have : (0 : ℚ) ≤ ((bar_width : Int) : ℚ) := by simp [bar_width]
    exact mul_nonneg (div_nonneg hc hm.le) this
  refine ⟨?_, ?_, ?_⟩
  · rw [bar_fill, static_cast_int_of_nonneg hq]
    simp [bar_width]
  · rw [bar_fill]
    exact le_min (static_cast_int_nonneg hq) (by decide)
  · rw [bar_fill]
    exact min_le_right _ _

theorem height_double_bounds (history : List ℚ) (max_val val : ℚ)
    (hval : val ∈ history) (hmax : ∀ x ∈ history, x ≤ max_val) :
    0 ≤ height_double history max_val val ∧ height_double history max_val val ≤ 5 := by
  have hmin : min_element history ≤ val := min_element_le history val hval
  have hvm : val ≤ max_val := hmax val hval
  unfold height_double range_double
  simp only
  split
  · rename_i h0
    have hv : val - min_element history = 0 := by linarith
    rw [hv]
    simp [static_cast_int_zero]
  · rename_i h0
    have hpos : 0 < max_val - min_element history :=
      lt_of_le_of_ne (by linarith) (Ne.symm h0)
    have hq0 : 0 ≤ (val - min_element history) / (max_val - min_element history) :=
      div_nonneg (by linarith) hpos.le
    have hq1 : (val - min_element history) / (max_val - min_element history) ≤ 1 := by
      rw [div_le_one hpos]; linarith
    refine ⟨static_cast_int_nonneg (mul_nonneg hq0 (by norm_num)), ?_⟩
    apply static_cast_int_le (mul_nonneg hq0 (by norm_num))
    push_cast
    linarith

theorem height_int_bounds (history : List Int) (max_val : Int) (val : Int)
    (hval : val ∈ history) (hmax : ∀ x ∈ history, x ≤ max_val) :
    0 ≤ height_int history (max_val : ℚ) val ∧ height_int history (max_val : ℚ) val ≤ 5 := by
  have hmin : min_element history ≤ val := min_element_le history val hval
  have hvm : val ≤ max_val := hmax val hval
  have hcast : static_cast_int ((max_val : ℚ) - ((min_element history : Int) : ℚ))
      = max_val - min_element history := by
    rw [← Int.cast_sub, static_cast_int_intCast]
  unfold height_int range_int
  simp only [hcast]
  split
  · rename_i h0
    have hv : val - min_element history = 0 := by omega
    rw [hv]
    simp
  · rename_i h0
    have hpos : 0 < max_val - min_element history := by omega
    have hnum : 0 ≤ val - min_element history := by omega
    rw [Int.tdiv_eq_ediv hnum hpos.le]
    have h1 : 0 ≤ (val - min_element history) / (max_val - min_element history) :=
      Int.ediv_nonneg hnum hpos.le
    have h2 : (val - min_element history) / (max_val - min_element history) < 2 :=
      Int.ediv_lt_of_lt_mul hpos (by omega)
    omega

/-! ## Failed queries and the sampling loop -/

/-- C5 (as stated, refuted): the process vanishes after a tick on which it had not consumed any
CPU time. Each query returns the same 0 as a legitimate zero reading, the loop body runs to its
end, the loop goes on with `stop_monitoring` still false, and the zeros are the newest entries
of the histories. -/
theorem vanished_process_counterexample :
    get_cpu_time none 100 = get_cpu_time (some (0, 0)) 100 ∧
    get_memory_usage_mb none 4096 = get_memory_usage_mb (some 0) 4096 ∧
    get_thread_count none = get_thread_count (some []) ∧
    (loop_iteration idle_world (vanished_reads 2)).goes_on = true ∧
    (loop_iteration idle_world (vanished_reads 2)).world.stop_monitoring = false ∧
    (loop_iteration idle_world (vanished_reads 2)).world.monitor.cpu_history.getLast?
      = some 0 ∧
    (loop_iteration idle_world (vanished_reads 2)).world.monitor.mem_mb_history.getLast?
      = some 0 ∧
    (loop_iteration idle_world (vanished_reads 2)).world.monitor.thread_count_history.getLast?
      = some 0 := by
  decide!

/-- C5 (amended): when the files of the monitored process cannot be opened, `get_cpu_time`,
`get_memory_usage_mb` and `get_thread_count` return 0, the value they also return for a live
process whose reading is zero; `update_metrics` stores these zeros as the newest memory and
thread samples, and the loop iteration leaves `stop_monitoring` false. -/
theorem vanished_process_reads_zero (w : World) (r : ProcReads)
    (hstat : r.stat = none) (hstatm : r.statm = none) (htask : r.task = none)
    (hlen : w.monitor.mem_mb_history.length = 60 ∧ w.monitor.thread_count_history.length = 60)
    (hrun : w.stop_monitoring = false) :
    (get_cpu_time r.stat r.clock_ticks = 0 ∧
      get_memory_usage_mb r.statm r.page_size = 0 ∧
      get_thread_count r.task = 0) ∧
    (get_cpu_time (some (0, 0)) r.clock_ticks = 0 ∧
      get_memory_usage_mb (some 0) r.page_size = 0 ∧
      get_thread_count (some []) = 0) ∧
    ((update_metrics w.monitor r).mem_mb_history.getLast? = some 0 ∧
      (update_metrics w.monitor r).thread_count_history.getLast? = some 0 ∧
      (update_metrics w.monitor r).last_cpu_time = 0) ∧
    ((loop_iteration w r).world.monitor = update_metrics w.monitor r ∧
      (loop_iteration w r).world.stop_monitoring = false) := by
  have h1 : get_cpu_time r.stat r.clock_ticks = 0 := by rw [hstat]; rfl
  have h2 : get_memory_usage_mb r.statm r.page_size = 0 := by rw [hstatm]; rfl
  have h3 : get_thread_count r.task = 0 := by rw [htask]; rfl
  refine ⟨⟨h1, h2, h3⟩, ⟨?_, ?_, rfl⟩, ⟨?_, ?_, h1⟩, ?_⟩
  · simp [get_cpu_time]
  · simp [get_memory_usage_mb]
  · show (assign_back (rotate_left_one w.monitor.mem_mb_history)
      (get_memory_usage_mb r.statm r.page_size)).getLast? = _
    rw [h2, push_getLast _ _ (ne_nil_of_length_sixty _ hlen.1)]
  · show (assign_back (rotate_left_one w.monitor.thread_count_history)
      (get_thread_count r.task)).getLast? = _
    rw [h3, push_getLast _ _ (ne_nil_of_length_sixty _ hlen.2)]
  · unfold loop_iteration
    rw [hrun]
    simp only [Bool.false_eq_true, if_false, update_console]
    split
    · rename_i m1 screen heq
      have hm : update_metrics w.monitor r = m1 := congrArg Prod.fst heq
      exact ⟨hm.symm, rfl⟩
    · rename_i m1 f heq
      have hm : update_metrics w.monitor r = m1 := congrArg Prod.fst heq
      exact ⟨hm.symm, rfl⟩

/-- Witness of C5: the process of `idle_world` vanishes at clock value 2. -/
theorem vanished_process_reads_zero_witness :
    (vanished_reads 2).stat = none ∧ idle_world.stop_monitoring = false ∧
    (update_metrics idle_world.monitor (vanished_reads 2)).mem_mb_history.getLast? = some 0 ∧
    (loop_iteration idle_world (vanished_reads 2)).world.stop_monitoring = false :=
  ⟨rfl, rfl,
    (vanished_process_reads_zero idle_world (vanished_reads 2) rfl rfl rfl
      ⟨by decide!, by decide!⟩ rfl).2.2.1.1,
    (vanished_process_reads_zero idle_world (vanished_reads 2) rfl rfl rfl
      ⟨by decide!, by decide!⟩ rfl).2.2.2.2⟩

/-! ## Bar fill and glyph indices -/

/-- C6 (the code at the failing input): the process vanishes after a tick on which it had
consumed 10 CPU seconds; with 4 cores and 1 second elapsed the CPU sample is -250, the bar fill
is -125 where the claim gives 0, and building the bar throws `std::length_error`, which ends
the loop. -/
theorem bar_fill_negative_after_vanish :
    (update_metrics busy_world.monitor (vanished_reads 2)).cpu_history.getLast?
      = some (-250) ∧
    (draw_metric_double
      (update_metrics busy_world.monitor (vanished_reads 2)).cpu_history 100).fill = -125 ∧
    max 0 (min 50 ⌊((-250 : ℚ) / 100) * 50⌋) = 0 ∧
    (draw_metric_double
      (update_metrics busy_world.monitor (vanished_reads 2)).cpu_history 100).fault
      = some .length_error ∧
    (loop_iteration busy_world (vanished_reads 2)).fault = some .length_error := by
  decide!

/-- C7 (the code at the failing inputs): with thread counts 3 and then 6 the reference maximum
is 6 and the sample 3 gets the index 0, where `floor(((3 - 0) / 6) * 5)` is 2, because
`draw_metric<int>` divides integers; and with a memory percentage of 200 for 59 ticks and 300
on the last one, the last index is -5, outside the glyph literal. -/
theorem glyph_index_failures :
    (run_ticks (construct 4 8000 0)
      [live_reads 1 0 256 ["1", "2", "3"],
       live_reads 2 0 256 ["1", "2", "3", "4", "5", "6"]]).thread_count_history
      = List.replicate 58 0 ++ [3, 6] ∧
    max_threads (List.replicate 58 0 ++ [3, 6]) = 6 ∧
    (draw_metric_int (List.replicate 58 0 ++ [3, 6]) ((6 : Int) : ℚ)).indices
      = List.replicate 58 0 ++ [0, 5] ∧
    max 0 (min 5 ⌊(((3 : ℚ) - 0) / (6 - 0)) * 5⌋) = 2 ∧
    (run_ticks (construct 4 1000 0) swollen_reads).mem_percent_history
      = List.replicate 59 200 ++ [300] ∧
    (draw_metric_double (List.replicate 59 200 ++ [300]) 100).indices
      = List.replicate 59 0 ++ [-5] ∧
    glyph_at (-5) = none ∧
    (draw_metric_double (List.replicate 59 200 ++ [300]) 100).fault
      = some .out_of_bounds := by
  decide!

/-- C8 (the code at the failing input): the memory percentage grows from 200 to 259, one point
per tick; the history is strictly increasing, the indices computed against the reference
maximum 100 are twenty times 0, then -1, then -2, hence not non-decreasing. -/
theorem glyph_indices_decrease :
    (run_ticks (construct 4 1000 0) rising_reads).mem_percent_history = rising_history ∧
    List.Pairwise (fun a b => a < b) rising_history ∧
    (draw_metric_double rising_history 100).indices
      = List.replicate 20 0 ++ List.replicate 20 (-1) ++ List.replicate 20 (-2) ∧
    ¬ List.Pairwise (fun a b => a ≤ b) (draw_metric_double rising_history 100).indices := by
  decide!

/-- C9 (as stated, refuted): on the all-zero histories of a fresh monitor every height is 0 and
every position is drawn with the character at index 0 of the glyph literal, which is the blank;
the lowest non-blank glyph is the dot at index 1. -/
theorem degenerate_history_counterexample :
    (draw_metric_double (construct 4 8000 0).cpu_history 100).indices = List.replicate 60 0 ∧
    (draw_metric_int (construct 4 8000 0).thread_count_history
      ((max_threads (construct 4 8000 0).thread_count_history : Int) : ℚ)).indices
      = List.replicate 60 0 ∧
    glyph_at 0 = some ' ' ∧
    glyph_chars.find? (fun c => c != ' ') = some '.' ∧
    glyph_at 0 ≠ glyph_chars.find? (fun c => c != ' ') := by
  decide!

/-- C9 (amended): for a history whose 60 samples are all equal, in the double and in the int
instantiation and for every reference maximum, the divisor `range` is not 0 (it is 1 when
`max_val - min_val` is 0), the height is 0 at every position, and every position is drawn with
the character at index 0 of the glyph literal, the blank. -/
theorem degenerate_history_blank (hd : List ℚ) (hi : List Int) (v max_val max_val_i : ℚ)
    (n : Int)
    (hdlen : hd.length = 60) (hilen : hi.length = 60)
    (hdv : ∀ x ∈ hd, x = v) (hin : ∀ x ∈ hi, x = n) :
    (range_double hd max_val ≠ 0 ∧ (max_val - min_element hd = 0 → range_double hd max_val = 1)) ∧
    (range_int hi max_val_i ≠ 0 ∧
      (static_cast_int (max_val_i - ((min_element hi : Int) : ℚ)) = 0 →
        range_int hi max_val_i = 1)) ∧
    ((∀ x ∈ hd, height_double hd max_val x = 0) ∧ (∀ x ∈ hi, height_int hi max_val_i x = 0)) ∧
    ((draw_metric_double hd max_val).indices = List.replicate 60 0 ∧
      (draw_metric_int hi max_val_i).indices = List.replicate 60 0) ∧
    glyph_at 0 = some ' ' := by
  have hmd : min_element hd = v := hdv _ (min_element_mem hd (ne_nil_of_length_sixty _ hdlen))
  have hmi : min_element hi = n := hin _ (min_element_mem hi (ne_nil_of_length_sixty _ hilen))
  have hrd : range_double hd max_val ≠ 0 := by
    unfold range_double
    simp only
    split
    · exact one_ne_zero
    · assumption
  have hri : range_int hi max_val_i ≠ 0 := by
    unfold range_int
    simp only
    split
    · exact one_ne_zero
    · assumption
  have hhd : ∀ x ∈ hd, height_double hd max_val x = 0 := by
    intro x hx
    unfold height_double
    simp only [hmd, hdv x hx, sub_self, zero_div, zero_mul, static_cast_int_zero]
  have hhi : ∀ x ∈ hi, height_int hi max_val_i x = 0 := by
    intro x hx
    unfold height_int
    simp only [hmi, hin x hx, sub_self, Int.zero_tdiv, zero_mul]
  refine ⟨⟨hrd, ?_⟩, ⟨hri, ?_⟩, ⟨hhd, hhi⟩, ⟨?_, ?_⟩, by decide⟩
  · intro h0
    unfold range_double
    simp only [h0, if_true]
  · intro h0
    unfold range_int
    simp only [h0, if_true]
  · rw [List.eq_replicate_iff]
    refine ⟨by simp [draw_metric_double, hdlen], ?_⟩
    intro b hb
    simp only [draw_metric_double, List.mem_map] at hb
    obtain ⟨x, hx, rfl⟩ := hb
    rw [hhd x hx]; rfl
  · rw [List.eq_replicate_iff]
    refine ⟨by simp [draw_metric_int, hilen], ?_⟩
    intro b hb
    simp only [draw_metric_int, List.mem_map] at hb
    obtain ⟨x, hx, rfl⟩ := hb
    rw [hhi x hx]; rfl

/-- Witness of C9: sixty samples of 3/2 against the maximum 100, and sixty thread counts of 7
against the maximum 7. -/
theorem degenerate_history_blank_witness :
    (List.replicate 60 (3 / 2 : ℚ)).length = 60 ∧
    (draw_metric_double (List.replicate 60 (3 / 2 : ℚ)) 100).indices = List.replicate 60 0 ∧
    range_int (List.replicate 60 (7 : Int)) 7 = 1 ∧
    (draw_metric_int (List.replicate 60 (7 : Int)) 7).indices = List.replicate 60 0 := by
  have h := degenerate_history_blank (List.replicate 60 (3 / 2 : ℚ))
    (List.replicate 60 (7 : Int)) (3 / 2) 100 7 7 (by decide!) (by decide!)
    (fun x hx => List.eq_of_mem_replicate hx) (fun x hx => List.eq_of_mem_replicate hx)
  exact ⟨by decide!, h.2.2.2.1.1, h.2.1.2 (by decide!), h.2.2.2.1.2⟩

/-! ## The reference maxima of `update_console` -/

/-- C10: for the memory-MB and thread-count metrics as `update_console` draws them, when every
sample of the 60-entry history is non-negative the reference maximum is positive and at least
every sample, the bar fill lies between 0 and 50, and every height (the glyph index before the
upper clamp) as well as every index lies between 0 and 5. -/
theorem console_scaling_in_range (mem : List ℚ) (threads : List Int)
    (hmlen : mem.length = 60) (htlen : threads.length = 60)
    (hmem : ∀ x ∈ mem, 0 ≤ x) (hthr : ∀ n ∈ threads, 0 ≤ n) :
    (0 < max_mem mem ∧ (∀ x ∈ mem, x ≤ max_mem mem) ∧
      (0 ≤ (draw_metric_double mem (max_mem mem)).fill ∧
        (draw_metric_double mem (max_mem mem)).fill ≤ 50) ∧
      (∀ x ∈ mem, 0 ≤ height_double mem (max_mem mem) x ∧
        height_double mem (max_mem mem) x ≤ 5) ∧
      (∀ i ∈ (draw_metric_double mem (max_mem mem)).indices, 0 ≤ i ∧ i ≤ 5)) ∧
    (0 < ((max_threads threads : Int) : ℚ) ∧
      (∀ n ∈ threads, ((n : Int) : ℚ) ≤ ((max_threads threads : Int) : ℚ)) ∧
      (0 ≤ (draw_metric_int threads ((max_threads threads : Int) : ℚ)).fill ∧
        (draw_metric_int threads ((max_threads threads : Int) : ℚ)).fill ≤ 50) ∧
      (∀ n ∈ threads, 0 ≤ height_int threads ((max_threads threads : Int) : ℚ) n ∧
        height_int threads ((max_threads threads : Int) : ℚ) n ≤ 5) ∧
      (∀ i ∈ (draw_metric_int threads ((max_threads threads : Int) : ℚ)).indices,
        0 ≤ i ∧ i ≤ 5)) := by
  have hmne := ne_nil_of_length_sixty _ hmlen
  have htne := ne_nil_of_length_sixty _ htlen
  have hmpos : 0 < max_mem mem := by
    unfold max_mem
    simp only
    split
    · norm_num
    · rename_i h; linarith [not_lt.mp h]
  have hmle : ∀ x ∈ mem, x ≤ max_mem mem := by
    intro x hx
    have := le_max_element mem x hx
    unfold max_mem
    simp only
    split
    · rename_i h; linarith
    · exact this
  have htpos : 0 < max_threads threads := by
    unfold max_threads
    simp only
    split
    · norm_num
    · rename_i h; omega
  have htle : ∀ n ∈ threads, n ≤ max_threads threads := by
    intro n hn
    have := le_max_element threads n hn
    unfold max_threads
    simp only
    split
    · rename_i h; omega
    · exact this
  have hmh := fun x hx => height_double_bounds mem (max_mem mem) x hx hmle
  have hth := fun n hn => height_int_bounds threads (max_threads threads) n hn htle
  have hmf := bar_fill_of_nonneg (back mem) (max_mem mem) (hmem _ (back_mem mem hmne)) hmpos
  have htf := bar_fill_of_nonneg ((back threads : Int) : ℚ) ((max_threads threads : Int) : ℚ)
    (by exact_mod_cast hthr _ (back_mem threads htne)) (by exact_mod_cast htpos)
  refine ⟨⟨hmpos, hmle, ⟨hmf.2.1, hmf.2.2⟩, hmh, ?_⟩,
    ⟨by exact_mod_cast htpos, fun n hn => by exact_mod_cast htle n hn, ⟨htf.2.1, htf.2.2⟩,
      hth, ?_⟩⟩
  · intro i hi
    simp only [draw_metric_double, List.mem_map] at hi
    obtain ⟨x, hx, rfl⟩ := hi
    have := hmh x hx
    unfold glyph_index
    exact ⟨le_min this.1 (by norm_num), min_le_right _ _⟩
  · intro i hi
    simp only [draw_metric_int, List.mem_map] at hi
    obtain ⟨x, hx, rfl⟩ := hi
    have := hth x hx
    unfold glyph_index
    exact ⟨le_min this.1 (by norm_num), min_le_right _ _⟩

/-- Witness of C10: 58 empty slots followed by 12 MB and 24 MB, and by 3 and 7 threads. -/
theorem console_scaling_in_range_witness :
    (∀ x ∈ List.replicate 58 (0 : ℚ) ++ [12, 24], 0 ≤ x) ∧
    (∀ n ∈ List.replicate 58 (0 : Int) ++ [3, 7], 0 ≤ n) ∧
    max_mem (List.replicate 58 (0 : ℚ) ++ [12, 24]) = 24 ∧
    0 < max_mem (List.replicate 58 (0 : ℚ) ++ [12, 24]) ∧
    (draw_metric_int (List.replicate 58 (0 : Int) ++ [3, 7])
      ((max_threads (List.replicate 58 (0 : Int) ++ [3, 7]) : Int) : ℚ)).fill ≤ 50 := by
  have h := console_scaling_in_range (List.replicate 58 (0 : ℚ) ++ [12, 24])
    (List.replicate 58 (0 : Int) ++ [3, 7]) (by decide!) (by decide!) (by decide!) (by decide!)
  exact ⟨by decide!, by decide!, by decide!, h.1.1, h.2.2.2.1.2⟩

end Monitor
